import Mathlib

/-!
Shallow embedding of the grid core of the repository (src/grid/mod.rs):
the `Point` coordinate type, the `Direction` enumeration, the `Grid`
container, the `Neighbor` type with its `next` stepping operation, the
adjacency functions `neighbor_in_direction` and `neighbors`, and the
`print_grid` renderer.

Modelling conventions:
* Rust `usize` is modelled as `Nat`.  The only arithmetic on coordinates
  is `+ 1` (exact on `Nat`) and `checked_sub 1` / `- 1`; `checked_sub`
  is modelled explicitly, and the raw `- 1` sites (which are a panic on
  underflow in Rust) are additionally modelled by an instrumented
  variant of each function, in which a panic is `none`.
* `Vec<T>` is modelled as `List T`; `Vec::get` is `List.getElem?`.
* The `anyhow` construction error of `Grid::try_from` is modelled as
  `Except String`, carrying the exact `bail!` message of the source.
* The `std::io::Write` sink of `print_grid` is modelled as a `String`
  accumulator; the `Display` mapper becomes a function into `String`.
-/

set_option autoImplicit false

namespace AocGrid

universe u

variable {T : Type u}

/-- `struct Point { pub x: usize, pub y: usize }` from src/grid/mod.rs. -/
structure Point where
  x : Nat
  y : Nat
  deriving DecidableEq, Repr

/-- `Point::new(x, y)`. -/
def Point.new (x y : Nat) : Point :=
  ⟨x, y⟩

/-- The derived `Ord` of `Point`: Rust `#[derive(Ord)]` compares fields in
declaration order, so `x` first and then `y`, each by the ordinary order on
`usize`, combined with `Ordering::then`. -/
def Point.cmp (a b : Point) : Ordering :=
  (compare a.x b.x).then (compare a.y b.y)

/-- `enum Direction` from src/grid/mod.rs (variants in source order). -/
inductive Direction where
  | up
  | down
  | left
  | right
  | upperRight
  | upperLeft
  | lowerRight
  | lowerLeft
  deriving DecidableEq, Repr

/-- The (Δy, Δx) offset table of the specification's section 4.2, used to
state the adjacency claims against the code. -/
def Direction.delta : Direction → Int × Int
  | .up => (-1, 0)
  | .down => (1, 0)
  | .left => (0, -1)
  | .right => (0, 1)
  | .upperLeft => (-1, -1)
  | .upperRight => (-1, 1)
  | .lowerLeft => (1, -1)
  | .lowerRight => (1, 1)

/-- `struct Grid<T>(Vec<Vec<T>>)` from src/grid/mod.rs. -/
structure Grid (T : Type u) where
  data : List (List T)
  deriving DecidableEq, Repr

/-- `Grid::height`: `self.0.len()`. -/
def Grid.height (g : Grid T) : Nat :=
  g.data.length

/-- `Grid::width`: `self.0.first().map_or(0, |row| row.len())`. -/
def Grid.width (g : Grid T) : Nat :=
  match g.data.head? with
  | none => 0
  | some row => row.length

/-- `Grid::get`: `self.0.get(position.y)?.get(position.x)`. -/
def Grid.get (g : Grid T) (position : Point) : Option T :=
  (g.data[position.y]?).bind fun row => row[position.x]?

/-- Writing through `Grid::get_mut`: `self.0.get_mut(position.y)?.get_mut(position.x)`
hands out a mutable reference to the cell; storing `v` through it replaces that
single cell.  When `get_mut` returns `None` no cell is written.  For an
in-bounds position the unchecked `IndexMut` path (`&mut self.0[y][x]`) performs
the same single-cell replacement. -/
def Grid.setCell (g : Grid T) (position : Point) (v : T) : Grid T :=
  match g.data[position.y]? with
  | none => g
  | some row => ⟨g.data.set position.y (row.set position.x v)⟩

/-- The rectangularity invariant of the specification: every row has the
grid's width. -/
def Grid.Rectangular (g : Grid T) : Prop :=
  ∀ row ∈ g.data, row.length = g.width

/-- The exact `bail!` message of `Grid::try_from` — the single shape error of
the core (the specification's `ShapeError::RaggedRows`). -/
def raggedRowsMsg : String :=
  "Rows must be the same length"

/-- The row-length checking loop of `Grid::try_from`: `row_len` starts as
`None`, is set from the first row, and any later row of a different length
fails with `bail!("Rows must be the same length")`. -/
def checkRows (rows : List (List T)) (rowLen : Option Nat) : Except String Unit :=
  match rows with
  | [] => Except.ok ()
  | row :: rest =>
    match rowLen with
    | none => checkRows rest (some row.length)
    | some len =>
      if len ≠ row.length then Except.error raggedRowsMsg
      else checkRows rest (some len)

/-- `impl TryFrom<Vec<Vec<T>>> for Grid<T>`: runs the row-length check and on
success wraps the rows unchanged. -/
def Grid.tryFrom (data : List (List T)) : Except String (Grid T) :=
  (checkRows data none).map fun _ => Grid.mk data

/-- Rust `usize::checked_sub`. -/
def checkedSub (a b : Nat) : Option Nat :=
  if b ≤ a then some (a - b) else none

/-- `struct Neighbor { direction, position }` from src/grid/mod.rs. -/
structure Neighbor where
  direction : Direction
  position : Point
  deriving DecidableEq, Repr

/-- `Neighbor::new`. -/
def Neighbor.new (direction : Direction) (position : Point) : Neighbor :=
  ⟨direction, position⟩

/-- `Neighbor::next`: steps one further cell in the stored direction,
re-running the underflow check (`checked_sub`) and the bounds check
(`grid.get`) of the adjacency engine. -/
def Neighbor.next (n : Neighbor) (g : Grid T) : Option Neighbor :=
  let x := n.position.x
  let y := n.position.y
  match n.direction with
  | .right =>
    (g.get (Point.new (x + 1) y)).map fun _ => Neighbor.new .right (Point.new (x + 1) y)
  | .left =>
    ((checkedSub x 1).bind fun newX => g.get (Point.new newX y)).map fun _ =>
      Neighbor.new .left (Point.new (x - 1) y)
  | .up =>
    ((checkedSub y 1).bind fun newY => g.get (Point.new x newY)).map fun _ =>
      Neighbor.new .up (Point.new x (y - 1))
  | .down =>
    (g.get (Point.new x (y + 1))).map fun _ => Neighbor.new .down (Point.new x (y + 1))
  | .upperRight =>
    ((checkedSub y 1).bind fun newY => g.get (Point.new (x + 1) newY)).map fun _ =>
      Neighbor.new .upperRight (Point.new (x + 1) (y - 1))
  | .upperLeft =>
    ((checkedSub y 1).bind fun newY =>
        (checkedSub x 1).bind fun newX => g.get (Point.new newX newY)).map fun _ =>
      Neighbor.new .upperLeft (Point.new (x - 1) (y - 1))
  | .lowerRight =>
    (g.get (Point.new (x + 1) (y + 1))).map fun _ =>
      Neighbor.new .lowerRight (Point.new (x + 1) (y + 1))
  | .lowerLeft =>
    ((checkedSub x 1).bind fun newX => g.get (Point.new newX (y + 1))).map fun _ =>
      Neighbor.new .lowerLeft (Point.new (x - 1) (y + 1))

/-- `neighbor_in_direction(grid, direction, position)` from src/grid/mod.rs. -/
def neighborInDirection (g : Grid T) (direction : Direction) (position : Point) :
    Option Neighbor :=
  let x := position.x
  let y := position.y
  match direction with
  | .up =>
    ((checkedSub y 1).bind fun newY => g.get (Point.new x newY)).map fun _ =>
      Neighbor.new direction (Point.new x (y - 1))
  | .down =>
    (g.get (Point.new x (y + 1))).map fun _ => Neighbor.new direction (Point.new x (y + 1))
  | .left =>
    ((checkedSub x 1).bind fun newX => g.get (Point.new newX y)).map fun _ =>
      Neighbor.new direction (Point.new (x - 1) y)
  | .right =>
    (g.get (Point.new (x + 1) y)).map fun _ => Neighbor.new direction (Point.new (x + 1) y)
  | .upperLeft =>
    ((checkedSub y 1).bind fun newY =>
        (checkedSub x 1).bind fun newX => g.get (Point.new newX newY)).map fun _ =>
      Neighbor.new direction (Point.new (x - 1) (y - 1))
  | .upperRight =>
    ((checkedSub y 1).bind fun newY => g.get (Point.new (x + 1) newY)).map fun _ =>
      Neighbor.new direction (Point.new (x + 1) (y - 1))
  | .lowerLeft =>
    ((checkedSub x 1).bind fun newX => g.get (Point.new newX (y + 1))).map fun _ =>
      Neighbor.new direction (Point.new (x - 1) (y + 1))
  | .lowerRight =>
    (g.get (Point.new (x + 1) (y + 1))).map fun _ =>
      Neighbor.new direction (Point.new (x + 1) (y + 1))

/-- The direction list built by `neighbors`: the four orthogonal directions,
extended by the four diagonal ones when `include_diagonals` is set. -/
def directionList (includeDiagonals : Bool) : List Direction :=
  let base : List Direction := [.up, .down, .left, .right]
  if includeDiagonals then
    base ++ [.upperLeft, .upperRight, .lowerLeft, .lowerRight]
  else base

/-- `neighbors(grid, position, include_diagonals)` from src/grid/mod.rs:
filter-maps `neighbor_in_direction` over the direction list. -/
def neighbors (g : Grid T) (position : Point) (includeDiagonals : Bool) : List Neighbor :=
  (directionList includeDiagonals).filterMap fun d => neighborInDirection g d position

/-- `print_grid(grid, mapper, writer)`: for each row, writes the mapped cell
representations in order, then a newline, into the sink (modelled as a
`String` accumulator starting empty). -/
def printGrid (g : Grid T) (mapper : T → String) : String :=
  g.data.foldl (fun acc row => (row.foldl (fun acc2 c => acc2 ++ mapper c) acc) ++ "\n") ""

/-- Rust's raw `usize` subtraction `a - b`, which is a fatal failure (panic)
on underflow; the panic outcome is `none`. -/
def rawSub (a b : Nat) : Option Nat :=
  if b ≤ a then some (a - b) else none

/-- The shape of every arm of the adjacency code in the instrumented model:
when the guard chain `o` (underflow check plus bounds check) yields nothing
the arm is a non-panicking absence; otherwise the success expression `k`
runs, and `k` is where the raw subtractions of the `map` closures live. -/
def guardThen {α : Type u} {β : Type} (o : Option α) (k : Option (Option β)) :
    Option (Option β) :=
  match o with
  | none => some none
  | some _ => k

/-- Instrumented `neighbor_in_direction`: every fatal-failure site of the
source — the raw `- 1` inside each `map` closure — is made explicit via
`rawSub`, and a panic anywhere surfaces as `none` for the whole call. -/
def neighborInDirectionInstr (g : Grid T) (direction : Direction) (position : Point) :
    Option (Option Neighbor) :=
  let x := position.x
  let y := position.y
  match direction with
  | .up =>
    guardThen ((checkedSub y 1).bind fun newY => g.get (Point.new x newY))
      ((rawSub y 1).map fun y1 => some (Neighbor.new direction (Point.new x y1)))
  | .down =>
    guardThen (g.get (Point.new x (y + 1)))
      (some (some (Neighbor.new direction (Point.new x (y + 1)))))
  | .left =>
    guardThen ((checkedSub x 1).bind fun newX => g.get (Point.new newX y))
      ((rawSub x 1).map fun x1 => some (Neighbor.new direction (Point.new x1 y)))
  | .right =>
    guardThen (g.get (Point.new (x + 1) y))
      (some (some (Neighbor.new direction (Point.new (x + 1) y))))
  | .upperLeft =>
    guardThen ((checkedSub y 1).bind fun newY =>
        (checkedSub x 1).bind fun newX => g.get (Point.new newX newY))
      ((rawSub x 1).bind fun x1 =>
        (rawSub y 1).map fun y1 => some (Neighbor.new direction (Point.new x1 y1)))
  | .upperRight =>
    guardThen ((checkedSub y 1).bind fun newY => g.get (Point.new (x + 1) newY))
      ((rawSub y 1).map fun y1 => some (Neighbor.new direction (Point.new (x + 1) y1)))
  | .lowerLeft =>
    guardThen ((checkedSub x 1).bind fun newX => g.get (Point.new newX (y + 1)))
      ((rawSub x 1).map fun x1 => some (Neighbor.new direction (Point.new x1 (y + 1))))
  | .lowerRight =>
    guardThen (g.get (Point.new (x + 1) (y + 1)))
      (some (some (Neighbor.new direction (Point.new (x + 1) (y + 1)))))

/-- Instrumented `Neighbor::next`, built the same way from the source of
`next` (which repeats the adjacency logic arm by arm). -/
def Neighbor.nextInstr (n : Neighbor) (g : Grid T) : Option (Option Neighbor) :=
  let x := n.position.x
  let y := n.position.y
  match n.direction with
  | .right =>
    guardThen (g.get (Point.new (x + 1) y))
      (some (some (Neighbor.new .right (Point.new (x + 1) y))))
  | .left =>
    guardThen ((checkedSub x 1).bind fun newX => g.get (Point.new newX y))
      ((rawSub x 1).map fun x1 => some (Neighbor.new .left (Point.new x1 y)))
  | .up =>
    guardThen ((checkedSub y 1).bind fun newY => g.get (Point.new x newY))
      ((rawSub y 1).map fun y1 => some (Neighbor.new .up (Point.new x y1)))
  | .down =>
    guardThen (g.get (Point.new x (y + 1)))
      (some (some (Neighbor.new .down (Point.new x (y + 1)))))
  | .upperRight =>
    guardThen ((checkedSub y 1).bind fun newY => g.get (Point.new (x + 1) newY))
      ((rawSub y 1).map fun y1 => some (Neighbor.new .upperRight (Point.new (x + 1) y1)))
  | .upperLeft =>
    guardThen ((checkedSub y 1).bind fun newY =>
        (checkedSub x 1).bind fun newX => g.get (Point.new newX newY))
      ((rawSub x 1).bind fun x1 =>
        (rawSub y 1).map fun y1 => some (Neighbor.new .upperLeft (Point.new x1 y1)))
  | .lowerRight =>
    guardThen (g.get (Point.new (x + 1) (y + 1)))
      (some (some (Neighbor.new .lowerRight (Point.new (x + 1) (y + 1)))))
  | .lowerLeft =>
    guardThen ((checkedSub x 1).bind fun newX => g.get (Point.new newX (y + 1)))
      ((rawSub x 1).map fun x1 => some (Neighbor.new .lowerLeft (Point.new x1 (y + 1))))

/-- Instrumented direction loop of `neighbors`: a panic in any
`neighbor_in_direction` call surfaces as `none` for the whole call. -/
def neighborsInstrAux (g : Grid T) (position : Point) : List Direction → Option (List Neighbor)
  | [] => some []
  | d :: rest =>
    (neighborInDirectionInstr g d position).bind fun r =>
      (neighborsInstrAux g position rest).map fun tail =>
        match r with
        | some n => n :: tail
        | none => tail

/-- Instrumented `neighbors`. -/
def neighborsInstr (g : Grid T) (position : Point) (includeDiagonals : Bool) :
    Option (List Neighbor) :=
  neighborsInstrAux g position (directionList includeDiagonals)

/-! ### Basic lemmas -/

@[simp]
theorem guardThen_none {α : Type u} {β : Type} (k : Option (Option β)) :
    guardThen (none : Option α) k = some none :=
  rfl

@[simp]
theorem guardThen_some {α : Type u} {β : Type} (a : α) (k : Option (Option β)) :
    guardThen (some a) k = k :=
  rfl

theorem guardThen_const {α : Type u} {β : Type} (o : Option α) (c : β) :
    guardThen o (some (some c)) = some (o.map fun _ => c) := by
  cases o <;> rfl

theorem neighborInDirectionInstr_eq_some (g : Grid T) (d : Direction) (p : Point) :
    neighborInDirectionInstr g d p = some (neighborInDirection g d p) := by
  obtain ⟨x, y⟩ := p
  cases d <;>
    (by_cases hx : 1 ≤ x <;> by_cases hy : 1 ≤ y <;>
      simp [neighborInDirectionInstr, neighborInDirection, checkedSub, rawSub,
        guardThen_const, hx, hy])

theorem nextInstr_eq_some (g : Grid T) (n : Neighbor) :
    n.nextInstr g = some (n.next g) := by
  obtain ⟨d, x, y⟩ := n
  cases d <;>
    (by_cases hx : 1 ≤ x <;> by_cases hy : 1 ≤ y <;>
      simp [Neighbor.nextInstr, Neighbor.next, checkedSub, rawSub,
        guardThen_const, hx, hy])

theorem neighborsInstrAux_eq_some (g : Grid T) (p : Point) (ds : List Direction) :
    neighborsInstrAux g p ds = some (ds.filterMap fun d => neighborInDirection g d p) := by
  induction ds with
  | nil => rfl
  | cons d rest ih =>
    simp only [neighborsInstrAux, neighborInDirectionInstr_eq_some, ih,
      List.filterMap_cons, Option.some_bind, Option.map_some']
    cases neighborInDirection g d p <;> rfl

theorem map_const_eq_ite {α : Type u} {β : Type} (o : Option α) (c : β) :
    o.map (fun _ => c) = if o.isSome then some c else none := by
  cases o <;> rfl

theorem isSome_getElem?_iff {α : Type u} (l : List α) (n : Nat) :
    l[n]?.isSome ↔ n < l.length := by
  rw [Option.isSome_iff_exists]
  constructor
  · rintro ⟨a, ha⟩
    obtain ⟨h, -⟩ := List.getElem?_eq_some_iff.mp ha
    exact h
  · intro h
    exact ⟨l[n], List.getElem?_eq_getElem h⟩

/-! ### Claim theorems -/

/-- C1: for every grid, direction `d` and position `p`,
`neighbor_in_direction` returns `some` neighbor pairing `d` with the
coordinate obtained by applying `d`'s fixed (Δy, Δx) offset to `p` exactly
when no component of `p` goes below zero under the offset and the resulting
coordinate is inside the grid's bounds (`get` of it is `some`); in every
other case it returns `none` — the offset is applied in exact integer
arithmetic, so a subtraction from a zero component never wraps. -/
theorem neighborInDirection_offset_spec (g : Grid T) (d : Direction) (p : Point) :
    neighborInDirection g d p =
      if 0 ≤ (p.y : Int) + d.delta.1 ∧ 0 ≤ (p.x : Int) + d.delta.2 ∧
          (g.get (Point.new ((p.x : Int) + d.delta.2).toNat
            ((p.y : Int) + d.delta.1).toNat)).isSome then
        some (Neighbor.new d (Point.new ((p.x : Int) + d.delta.2).toNat
          ((p.y : Int) + d.delta.1).toNat))
      else none := by
  obtain ⟨x, y⟩ := p
  have hx0 : ((x : Int) + 0).toNat = x := by omega
  have hy0 : ((y : Int) + 0).toNat = y := by omega
  have hx1 : ((x : Int) + 1).toNat = x + 1 := by omega
  have hy1 : ((y : Int) + 1).toNat = y + 1 := by omega
  have hxm : ((x : Int) + (-1)).toNat = x - 1 := by omega
  have hym : ((y : Int) + (-1)).toNat = y - 1 := by omega
  have px0 : (0 : Int) ≤ (x : Int) + 0 := by omega
  have py0 : (0 : Int) ≤ (y : Int) + 0 := by omega
  have px1 : (0 : Int) ≤ (x : Int) + 1 := by omega
  have py1 : (0 : Int) ≤ (y : Int) + 1 := by omega
  cases d
  case up =>
    simp only [neighborInDirection, Direction.delta, checkedSub, hx0, hym]
    by_cases hy : 1 ≤ y
    · have h1 : (0 : Int) ≤ (y : Int) + (-1) := by omega
      simp only [if_pos hy, Option.some_bind, map_const_eq_ite]
      simp [h1, px0]
    · have h1 : ¬ (0 : Int) ≤ (y : Int) + (-1) := by omega
      simp [if_neg hy, h1]
  case down =>
    simp only [neighborInDirection, Direction.delta, checkedSub, hx0, hy1,
      map_const_eq_ite]
    simp [py1, px0]
  case left =>
    simp only [neighborInDirection, Direction.delta, checkedSub, hxm, hy0]
    by_cases hx : 1 ≤ x
    · have h1 : (0 : Int) ≤ (x : Int) + (-1) := by omega
      simp only [if_pos hx, Option.some_bind, map_const_eq_ite]
      simp [h1, py0]
    · have h1 : ¬ (0 : Int) ≤ (x : Int) + (-1) := by omega
      simp [if_neg hx, h1]
  case right =>
    simp only [neighborInDirection, Direction.delta, checkedSub, hx1, hy0,
      map_const_eq_ite]
    simp [py0, px1]
  case upperRight =>
    simp only [neighborInDirection, Direction.delta, checkedSub, hx1, hym]
    by_cases hy : 1 ≤ y
    · have h1 : (0 : Int) ≤ (y : Int) + (-1) := by omega
      simp only [if_pos hy, Option.some_bind, map_const_eq_ite]
      simp [h1, px1]
    · have h1 : ¬ (0 : Int) ≤ (y : Int) + (-1) := by omega
      simp [if_neg hy, h1]
  case upperLeft =>
    simp only [neighborInDirection, Direction.delta, checkedSub, hxm, hym]
    by_cases hy : 1 ≤ y
    · simp only [if_pos hy, Option.some_bind]
      by_cases hx : 1 ≤ x
      · have h1 : (0 : Int) ≤ (y : Int) + (-1) := by omega
        have h2 : (0 : Int) ≤ (x : Int) + (-1) := by omega
        simp only [if_pos hx, Option.some_bind, map_const_eq_ite]
        simp [h1, h2]
      · have h2 : ¬ (0 : Int) ≤ (x : Int) + (-1) := by omega
        simp [if_neg hx, h2]
    · have h1 : ¬ (0 : Int) ≤ (y : Int) + (-1) := by omega
      simp [if_neg hy, h1]
  case lowerRight =>
    simp only [neighborInDirection, Direction.delta, checkedSub, hx1, hy1,
      map_const_eq_ite]
    simp [py1, px1]
  case lowerLeft =>
    simp only [neighborInDirection, Direction.delta, checkedSub, hxm, hy1]
    by_cases hx : 1 ≤ x
    · have h1 : (0 : Int) ≤ (x : Int) + (-1) := by omega
      simp only [if_pos hx, Option.some_bind, map_const_eq_ite]
      simp [h1, py1]
    · have h1 : ¬ (0 : Int) ≤ (x : Int) + (-1) := by omega
      simp [if_neg hx, h1]

/-- C4: for every grid and every neighbor value `n`, `Neighbor::next` applied
to `n` yields exactly the same result as
`neighbor_in_direction(grid, n.direction, n.position)`: the two separately
written implementations of the bounds/underflow logic are equal as
functions. -/
theorem neighbor_next_eq_neighborInDirection (g : Grid T) (n : Neighbor) :
    n.next g = neighborInDirection g n.direction n.position := by
  obtain ⟨d, p⟩ := n
  cases d <;> rfl

/-- C3: for every grid, position and direction, the adjacency operations
`neighbor_in_direction`, `neighbors` and `Neighbor::next` never fail
fatally: the instrumented models, in which every potentially panicking raw
subtraction is explicit and a panic is `none`, always return `some` of the
pure result — every boundary condition is absence, never an exception. -/
theorem adjacency_engine_no_fatal_failure (g : Grid T) (d : Direction) (p : Point)
    (n : Neighbor) (b : Bool) :
    neighborInDirectionInstr g d p = some (neighborInDirection g d p) ∧
    n.nextInstr g = some (n.next g) ∧
    neighborsInstr g p b = some (neighbors g p b) := by
  refine ⟨neighborInDirectionInstr_eq_some g d p, nextInstr_eq_some g n, ?_⟩
  simpa [neighborsInstr, neighbors] using neighborsInstrAux_eq_some g p (directionList b)

end AocGrid

namespace AocGrid

universe u

variable {T : Type u}

/-- C5: for every grid and position, `neighbors` equals the list obtained by
evaluating `neighbor_in_direction` in the fixed order Up, Down, Left, Right,
then — only when `include_diagonals` is set — UpperLeft, UpperRight,
LowerLeft, LowerRight, keeping the `some` results in that order; hence the
result has length at most 4 without diagonals and at most 8 with. -/
theorem neighbors_enumeration_spec (g : Grid T) (p : Point) (b : Bool) :
    neighbors g p b =
      ((if b then
          [Direction.up, Direction.down, Direction.left, Direction.right,
            Direction.upperLeft, Direction.upperRight, Direction.lowerLeft,
            Direction.lowerRight]
        else
          [Direction.up, Direction.down, Direction.left, Direction.right]).filterMap
        fun d => neighborInDirection g d p) ∧
    (neighbors g p b).length ≤ (if b then 8 else 4) := by
  cases b
  · exact ⟨rfl, by
      simpa [neighbors, directionList] using
        List.length_filterMap_le (fun d => neighborInDirection g d p) (directionList false)⟩
  · exact ⟨rfl, by
      simpa [neighbors, directionList] using
        List.length_filterMap_le (fun d => neighborInDirection g d p) (directionList true)⟩

/-- C6: for every rectangular grid and coordinate (y, x), `get` returns a
cell exactly when `y < height()` and `x < width()`; for any coordinate with
`y ≥ height()` or `x ≥ width()` it returns `none`, not an error. -/
theorem grid_get_isSome_iff (g : Grid T) (hrect : g.Rectangular) (p : Point) :
    (g.get p).isSome ↔ p.y < g.height ∧ p.x < g.width := by
  rw [Grid.get]
  cases hy : g.data[p.y]? with
  | none =>
    have hlen : g.data.length ≤ p.y := List.getElem?_eq_none_iff.mp hy
    simp only [Option.none_bind, Option.isSome_none, Bool.false_eq_true, false_iff]
    rintro ⟨h1, -⟩
    exact absurd h1 (by simpa [Grid.height] using Nat.not_lt.mpr hlen)
  | some row =>
    have hy' : p.y < g.data.length := by
      obtain ⟨h, -⟩ := List.getElem?_eq_some_iff.mp hy
      exact h
    have hmem : row ∈ g.data := List.getElem?_mem hy
    have hw : row.length = g.width := hrect row hmem
    simp only [Option.some_bind]
    rw [isSome_getElem?_iff]
    constructor
    · intro h
      exact ⟨by simpa [Grid.height] using hy', by rwa [hw] at h⟩
    · rintro ⟨-, h2⟩
      rwa [hw]

/-- Witness for C6 at a concrete rectangular grid: in the 2-row, 3-column
grid, (x, y) = (2, 1) is readable while (x, y) = (0, 2) is not. -/
theorem grid_get_isSome_iff_witness :
    ((Grid.mk [[1, 2, 3], [4, 5, 6]] : Grid Nat).get (Point.new 2 1)).isSome = true ∧
    ((Grid.mk [[1, 2, 3], [4, 5, 6]] : Grid Nat).get (Point.new 0 2)).isSome = false := by
  have hrect : (Grid.mk [[1, 2, 3], [4, 5, 6]] : Grid Nat).Rectangular := by
    intro row hrow
    cases hrow with
    | head => rfl
    | tail _ h2 =>
      cases h2 with
      | head => rfl
      | tail _ h3 => cases h3
  constructor
  · exact (grid_get_isSome_iff (Grid.mk [[1, 2, 3], [4, 5, 6]]) hrect
      (Point.new 2 1)).mpr (by decide)
  · have h := grid_get_isSome_iff (Grid.mk [[1, 2, 3], [4, 5, 6]]) hrect
      (Point.new 0 2)
    have hno : ¬ ((Grid.mk [[1, 2, 3], [4, 5, 6]] : Grid Nat).get
        (Point.new 0 2)).isSome = true :=
      fun hc => absurd (h.mp hc) (by decide)
    simpa using hno

theorem checkRows_some_ok_iff (rows : List (List T)) (len : Nat) :
    checkRows rows (some len) = Except.ok () ↔ ∀ r ∈ rows, r.length = len := by
  induction rows with
  | nil => simp [checkRows]
  | cons r rest ih =>
    simp only [checkRows, List.forall_mem_cons]
    by_cases h : len = r.length
    · subst h
      simp [ih]
    · rw [if_pos h]
      constructor
      · intro hcontra
        exact Except.noConfusion hcontra
      · rintro ⟨h1, -⟩
        exact absurd h1.symm h

theorem checkRows_ok_or_error (rows : List (List T)) (acc : Option Nat) :
    checkRows rows acc = Except.ok () ∨ checkRows rows acc = Except.error raggedRowsMsg := by
  induction rows generalizing acc with
  | nil => exact Or.inl rfl
  | cons r rest ih =>
    cases acc with
    | none => exact ih (some r.length)
    | some len =>
      by_cases h : len = r.length
      · simpa [checkRows, h] using ih (some len)
      · right
        simp [checkRows, h]

theorem checkRows_none_ok_iff (rows : List (List T)) :
    checkRows rows none = Except.ok () ↔
      ∀ r1 ∈ rows, ∀ r2 ∈ rows, r1.length = r2.length := by
  cases rows with
  | nil => simp [checkRows]
  | cons r rest =>
    rw [show checkRows (r :: rest) none = checkRows rest (some r.length) from rfl,
      checkRows_some_ok_iff]
    constructor
    · intro hall
      have f : ∀ s ∈ r :: rest, s.length = r.length := by
        intro s hs
        rcases List.mem_cons.mp hs with h | h
        · rw [h]
        · exact hall s h
      intro r1 h1 r2 h2
      rw [f r1 h1, f r2 h2]
    · intro hpair r' hr'
      exact hpair r' (List.mem_cons_of_mem _ hr') r (List.mem_cons_self _ _)

/-- C2: construction from a sequence of rows succeeds exactly when every row
has the same length as every other row, keeping the rows verbatim (no
padding or truncation); the zero-rows input is valid and yields height 0 and
width 0, and any ragged input fails with the shape error. -/
theorem grid_tryFrom_spec (data : List (List T)) :
    ((∀ r1 ∈ data, ∀ r2 ∈ data, r1.length = r2.length) →
      Grid.tryFrom data = Except.ok (Grid.mk data)) ∧
    (¬ (∀ r1 ∈ data, ∀ r2 ∈ data, r1.length = r2.length) →
      Grid.tryFrom data = Except.error raggedRowsMsg) ∧
    Grid.tryFrom ([] : List (List T)) = Except.ok (Grid.mk []) ∧
    (Grid.mk ([] : List (List T))).height = 0 ∧
    (Grid.mk ([] : List (List T))).width = 0 := by
  refine ⟨?_, ?_, rfl, rfl, rfl⟩
  · intro h
    have hok := (checkRows_none_ok_iff data).mpr h
    simp [Grid.tryFrom, hok, Except.map]
  · intro h
    have hne : checkRows data none ≠ Except.ok () :=
      fun hc => h ((checkRows_none_ok_iff data).mp hc)
    rcases checkRows_ok_or_error data none with hok | herr
    · exact absurd hok hne
    · simp [Grid.tryFrom, herr, Except.map]

/-- Witness for C2: a rectangular input constructs verbatim, a ragged one
fails with the shape error. -/
theorem grid_tryFrom_spec_witness :
    Grid.tryFrom ([[1, 2], [3, 4]] : List (List Nat)) =
      Except.ok (Grid.mk [[1, 2], [3, 4]]) ∧
    Grid.tryFrom ([[1], [2, 3]] : List (List Nat)) = Except.error raggedRowsMsg := by
  constructor
  · exact (grid_tryFrom_spec [[1, 2], [3, 4]]).1 (by decide)
  · exact (grid_tryFrom_spec ([[1], [2, 3]] : List (List Nat))).2.1 (by decide)

/-- C7 counterexample: at a = (x 0, y 1) and b = (x 1, y 0) the derived order
of `Point` puts a before b (it compares `x` first), while the claimed
y-then-x lexicographic order would put b before a — the claim as stated is
false on the code. -/
theorem point_order_y_first_counterexample :
    ¬ (Point.cmp (Point.new 0 1) (Point.new 1 0) = Ordering.lt ↔
        ((Point.new 0 1).y < (Point.new 1 0).y ∨
          ((Point.new 0 1).y = (Point.new 1 0).y ∧
            (Point.new 0 1).x < (Point.new 1 0).x))) := by
  decide

/-- C7 amended: the `Point` type's derived total order is lexicographic by
`x` then `y`: a < b exactly when a.x < b.x, or a.x = b.x and a.y < b.y. -/
theorem point_cmp_lt_iff (a b : Point) :
    Point.cmp a b = Ordering.lt ↔ a.x < b.x ∨ (a.x = b.x ∧ a.y < b.y) := by
  unfold Point.cmp
  rcases Nat.lt_trichotomy a.x b.x with h | h | h
  · simp [Nat.compare_eq_lt.mpr h, Ordering.then, h]
  · rw [h]
    simp [Nat.compare_eq_eq.mpr rfl, Ordering.then, Nat.compare_eq_lt]
  · rw [Nat.compare_eq_gt.mpr h]
    simp only [Ordering.then]
    constructor
    · intro hc
      exact Ordering.noConfusion hc
    · intro hc
      rcases hc with h1 | ⟨h1, h2⟩ <;> omega

theorem string_foldl_shift (l : List String) (a : String) :
    l.foldl (fun r s => r ++ s) a = a ++ l.foldl (fun r s => r ++ s) "" := by
  induction l generalizing a with
  | nil => simp
  | cons s l2 ih =>
    simp only [List.foldl_cons]
    rw [ih (a ++ s), ih ("" ++ s), String.empty_append, String.append_assoc]

theorem string_join_cons (s : String) (l : List String) :
    String.join (s :: l) = s ++ String.join l := by
  show (s :: l).foldl (fun r t => r ++ t) "" = s ++ l.foldl (fun r t => r ++ t) ""
  simp only [List.foldl_cons, String.empty_append]
  exact string_foldl_shift l s

theorem printGrid_row_foldl (mapper : T → String) (row : List T) (acc : String) :
    row.foldl (fun acc2 c => acc2 ++ mapper c) acc = acc ++ String.join (row.map mapper) := by
  induction row generalizing acc with
  | nil => simp [String.join]
  | cons c rest ih =>
    simp only [List.foldl_cons, List.map_cons]
    rw [ih, string_join_cons, ← String.append_assoc]

/-- C8: rendering writes each row as the concatenation of the mapped
representations of its cells followed by a line terminator, rows in order;
concretely, a 3×3 grid holding 1..9 row-major through an identity mapping
renders to exactly "123\n456\n789\n". -/
theorem printGrid_spec (g : Grid T) (mapper : T → String) :
    printGrid g mapper =
      String.join (g.data.map fun row => String.join (row.map mapper) ++ "\n") ∧
    printGrid (Grid.mk [[1, 2, 3], [4, 5, 6], [7, 8, 9]] : Grid Nat)
      (fun n => toString n) = "123\n456\n789\n" := by
  constructor
  · have hmain : ∀ (rows : List (List T)) (acc : String),
        rows.foldl (fun acc row =>
            (row.foldl (fun acc2 c => acc2 ++ mapper c) acc) ++ "\n") acc
          = acc ++ String.join (rows.map fun row => String.join (row.map mapper) ++ "\n") := by
      intro rows
      induction rows with
      | nil =>
        intro acc
        simp [String.join]
      | cons r rest ih =>
        intro acc
        simp only [List.foldl_cons, List.map_cons]
        rw [printGrid_row_foldl, string_join_cons, ih]
        simp [String.append_assoc]
    simpa [printGrid] using hmain g.data ""
  · rfl

theorem grid_width_eq (g : Grid T) :
    g.width = ((g.data[0]?).map List.length).getD 0 := by
  obtain ⟨l⟩ := g
  cases l with
  | nil => rfl
  | cons r t => simp [Grid.width]

/-- C9: for every grid and every in-bounds coordinate p, writing a value v
through mutable access at p and then reading back at p via `get` yields
`some v`. -/
theorem setCell_get_roundtrip (g : Grid T) (p : Point) (v : T)
    (h : (g.get p).isSome) :
    (g.setCell p v).get p = some v := by
  unfold Grid.get at h
  cases hy : g.data[p.y]? with
  | none =>
    rw [hy] at h
    simp at h
  | some row =>
    rw [hy] at h
    simp only [Option.some_bind] at h
    have hx : p.x < row.length := (isSome_getElem?_iff _ _).mp h
    have hylt : p.y < g.data.length := by
      obtain ⟨h2, -⟩ := List.getElem?_eq_some_iff.mp hy
      exact h2
    have hset : g.setCell p v = Grid.mk (g.data.set p.y (row.set p.x v)) := by
      simp only [Grid.setCell, hy]
    rw [hset]
    show ((g.data.set p.y (row.set p.x v))[p.y]?).bind (fun r => r[p.x]?) = some v
    rw [List.getElem?_set_self hylt]
    simp only [Option.some_bind]
    exact List.getElem?_set_self hx

/-- Witness for C9 at a concrete grid and in-bounds coordinate. -/
theorem setCell_get_roundtrip_witness :
    ((Grid.mk [[1, 2], [3, 4]] : Grid Nat).setCell (Point.new 1 0) 9).get
      (Point.new 1 0) = some 9 :=
  setCell_get_roundtrip (Grid.mk [[1, 2], [3, 4]]) (Point.new 1 0) 9 (by decide)

/-- C10: writing a cell value at an in-bounds coordinate p leaves the grid's
height, its width, and the value of every cell at a coordinate other than p
unchanged. -/
theorem setCell_frame (g : Grid T) (p : Point) (v : T) (h : (g.get p).isSome)
    (q : Point) (hq : q ≠ p) :
    (g.setCell p v).height = g.height ∧ (g.setCell p v).width = g.width ∧
    (g.setCell p v).get q = g.get q := by
  unfold Grid.get at h
  cases hy : g.data[p.y]? with
  | none =>
    rw [hy] at h
    simp at h
  | some row =>
    rw [hy] at h
    simp only [Option.some_bind] at h
    have hylt : p.y < g.data.length := by
      obtain ⟨h2, -⟩ := List.getElem?_eq_some_iff.mp hy
      exact h2
    have hset : g.setCell p v = Grid.mk (g.data.set p.y (row.set p.x v)) := by
      simp only [Grid.setCell, hy]
    refine ⟨?_, ?_, ?_⟩
    · rw [hset]
      show (g.data.set p.y (row.set p.x v)).length = g.data.length
      simp
    · rw [hset, grid_width_eq, grid_width_eq]
      show ((g.data.set p.y (row.set p.x v))[0]?.map List.length).getD 0 =
        ((g.data[0]?).map List.length).getD 0
      by_cases h0 : p.y = 0
      · rw [h0] at hy hylt
        rw [h0, List.getElem?_set_self hylt, hy]
        simp
      · rw [List.getElem?_set_ne h0]
    · rw [hset]
      show ((g.data.set p.y (row.set p.x v))[q.y]?).bind (fun r => r[q.x]?) =
        (g.data[q.y]?).bind fun r => r[q.x]?
      by_cases hyy : q.y = p.y
      · have hxx : p.x ≠ q.x := by
          intro hxe
          apply hq
          obtain ⟨qx, qy⟩ := q
          obtain ⟨px, py⟩ := p
          simp only at hyy hxe
          rw [← hxe, hyy]
        rw [hyy, List.getElem?_set_self hylt, hy]
        simp only [Option.some_bind]
        exact List.getElem?_set_ne hxx
      · rw [List.getElem?_set_ne fun hc => hyy hc.symm]

/-- Witness for C10: writing at (0, 0) leaves dimensions and the cell at
(1, 1) unchanged. -/
theorem setCell_frame_witness :
    ((Grid.mk [[1, 2], [3, 4]] : Grid Nat).setCell (Point.new 0 0) 9).height =
        (Grid.mk [[1, 2], [3, 4]] : Grid Nat).height ∧
    ((Grid.mk [[1, 2], [3, 4]] : Grid Nat).setCell (Point.new 0 0) 9).width =
        (Grid.mk [[1, 2], [3, 4]] : Grid Nat).width ∧
    ((Grid.mk [[1, 2], [3, 4]] : Grid Nat).setCell (Point.new 0 0) 9).get
        (Point.new 1 1) =
      (Grid.mk [[1, 2], [3, 4]] : Grid Nat).get (Point.new 1 1) :=
  setCell_frame (Grid.mk [[1, 2], [3, 4]]) (Point.new 0 0) 9 (by decide)
    (Point.new 1 1) (by decide)

/-- Witness for the amended C7 order characterization at concrete points. -/
theorem point_cmp_lt_iff_witness :
    Point.cmp (Point.new 0 5) (Point.new 1 0) = Ordering.lt :=
  (point_cmp_lt_iff (Point.new 0 5) (Point.new 1 0)).mpr (Or.inl (by decide))

end AocGrid

